import Mathlib

/-!
Verification of the webhook-to-deployment pipeline of
`eliasfloreteng/github-auto-deployer`.

Go strings are modelled as lists of bytes (`GoStr := List Nat`), since Go
strings are byte slices and the repository compares, slices and hashes them
bytewise.  Each Go function relevant to the claims is embedded as a Lean
function on this representation; effectful steps (process exit codes,
captured process output, filesystem probes, timers) are passed in as
explicit inputs describing what the external world did.
-/

set_option maxRecDepth 4000

/-- A Go string: a list of byte values. -/
abbrev GoStr := List Nat

/-- Byte list of a Lean string literal (all literals used are ASCII). -/
def goStr (s : String) : GoStr := s.data.map Char.toNat

namespace GoStrings

/-- Go `strings.TrimPrefix(s, p)`: drop `p` from the front when it is there. -/
def trimPre (p s : GoStr) : GoStr :=
  if p.isPrefixOf s then s.drop p.length else s

/-- Go `strings.TrimSuffix(s, suf)`: drop `suf` from the end when it is there. -/
def trimSuf (s suf : GoStr) : GoStr :=
  if suf.isSuffixOf s then s.take (s.length - suf.length) else s

/-- Go `strings.Contains(s, sub)`: does `sub` occur contiguously in `s`? -/
def containsGo : GoStr → GoStr → Bool
  | [], sub => sub.isEmpty
  | b :: rest, sub => sub.isPrefixOf (b :: rest) || containsGo rest sub

/-- ASCII lower-casing of one byte, as Go `strings.ToLower` acts on ASCII. -/
def lowerByte (b : Nat) : Nat := if 65 ≤ b ∧ b ≤ 90 then b + 32 else b

/-- Go `strings.ToLower` (ASCII range; the URLs at issue are ASCII). -/
def toLowerGo (s : GoStr) : GoStr := s.map lowerByte

/-- Go `strings.Replace(s, old, new, 1)` for non-empty `old`: replace the
first occurrence of `old`, scanning left to right. -/
def replaceFirst (old new : GoStr) : GoStr → GoStr
  | [] => []
  | b :: rest =>
    if old.isPrefixOf (b :: rest) then new ++ (b :: rest).drop old.length
    else b :: replaceFirst old new rest

/-- Go `unicode.IsSpace` restricted to ASCII, as `strings.Fields` uses it. -/
def isSpaceByte (b : Nat) : Bool :=
  b = 32 || b = 9 || b = 10 || b = 11 || b = 12 || b = 13

/-- Accumulating worker for `fieldsGo`. -/
def fieldsAux : GoStr → GoStr → List GoStr
  | [], cur => if cur = [] then [] else [cur.reverse]
  | b :: rest, cur =>
    if isSpaceByte b then
      if cur = [] then fieldsAux rest [] else cur.reverse :: fieldsAux rest []
    else fieldsAux rest (b :: cur)

/-- Go `strings.Fields`: split around runs of whitespace. -/
def fieldsGo (s : GoStr) : List GoStr := fieldsAux s []

end GoStrings

open GoStrings

/-! ## URL normalizer (`internal/git`, `normalizeGitURL` / `CompareURLs`) -/

/-- Embedding of `normalizeGitURL`: trim a trailing `.git`, rewrite a
`git@`-style SSH URL (first `:` becomes `/`, `git@` becomes `https://`),
prepend `https://` when no scheme is present, and lower-case. -/
def normalizeGitURL (url : GoStr) : GoStr :=
  let u1 := trimSuf url (goStr ".git")
  let u2 :=
    if (goStr "git@").isPrefixOf u1 then
      replaceFirst (goStr "git@") (goStr "https://")
        (replaceFirst (goStr ":") (goStr "/") u1)
    else u1
  let u3 :=
    if (goStr "http://").isPrefixOf u2 || (goStr "https://").isPrefixOf u2 then u2
    else goStr "https://" ++ u2
  toLowerGo u3

/-- Embedding of `CompareURLs`: equality of normalized forms. -/
def CompareURLs (url1 url2 : GoStr) : Bool :=
  normalizeGitURL url1 == normalizeGitURL url2

/-! ## SHA-256 and HMAC (Go `crypto/sha256`, `crypto/hmac`, FIPS 180-4) -/

namespace Sha256

/-- Truncation to a 32-bit word. -/
def w32 (n : Nat) : Nat := n % 4294967296

/-- Right rotation of a 32-bit word. -/
def rotr (n x : Nat) : Nat := w32 ((x >>> n) ||| (x <<< (32 - n)))

/-- Bitwise complement of a 32-bit word. -/
def notW (x : Nat) : Nat := x ^^^ 4294967295

/-- FIPS 180-4 `Ch`. -/
def ch (x y z : Nat) : Nat := (x &&& y) ^^^ (notW x &&& z)

/-- FIPS 180-4 `Maj`. -/
def maj (x y z : Nat) : Nat := (x &&& y) ^^^ (x &&& z) ^^^ (y &&& z)

/-- FIPS 180-4 `Σ₀`. -/
def bigSigma0 (x : Nat) : Nat := rotr 2 x ^^^ rotr 13 x ^^^ rotr 22 x

/-- FIPS 180-4 `Σ₁`. -/
def bigSigma1 (x : Nat) : Nat := rotr 6 x ^^^ rotr 11 x ^^^ rotr 25 x

/-- FIPS 180-4 `σ₀`. -/
def smallSigma0 (x : Nat) : Nat := rotr 7 x ^^^ rotr 18 x ^^^ (x >>> 3)

/-- FIPS 180-4 `σ₁`. -/
def smallSigma1 (x : Nat) : Nat := rotr 17 x ^^^ rotr 19 x ^^^ (x >>> 10)

/-- The 64 SHA-256 round constants. -/
def K : List Nat :=
  [1116352408, 1899447441, 3049323471, 3921009573, 961987163, 1508970993,
   2453635748, 2870763221, 3624381080, 310598401, 607225278, 1426881987,
   1925078388, 2162078206, 2614888103, 3248222580, 3835390401, 4022224774,
   264347078, 604807628, 770255983, 1249150122, 1555081692, 1996064986,
   2554220882, 2821834349, 2952996808, 3210313671, 3336571891, 3584528711,
   113926993, 338241895, 666307205, 773529912, 1294757372, 1396182291,
   1695183700, 1986661051, 2177026350, 2456956037, 2730485921, 2820302411,
   3259730800, 3345764771, 3516065817, 3600352804, 4094571909, 275423344,
   430227734, 506948616, 659060556, 883997877, 958139571, 1322822218,
   1537002063, 1747873779, 1955562222, 2024104815, 2227730452, 2361852424,
   2428436474, 2756734187, 3204031479, 3329325298]

/-- The eight working variables of the compression function. -/
structure St where
  a : Nat
  b : Nat
  c : Nat
  d : Nat
  e : Nat
  f : Nat
  g : Nat
  h : Nat

/-- The SHA-256 initial hash value. -/
def initSt : St :=
  ⟨1779033703, 3144134277, 1013904242, 2773480762,
   1359893119, 2600822924, 528734635, 1541459225⟩

/-- One SHA-256 round, fed one constant/schedule-word pair. -/
def step (kw : Nat × Nat) (s : St) : St :=
  let t1 := w32 (s.h + bigSigma1 s.e + ch s.e s.f s.g + kw.1 + kw.2)
  let t2 := w32 (bigSigma0 s.a + maj s.a s.b s.c)
  ⟨w32 (t1 + t2), s.a, s.b, s.c, w32 (s.d + t1), s.e, s.f, s.g⟩

/-- Run the 64 rounds over the zipped constants and schedule. -/
def rounds : List (Nat × Nat) → St → St
  | [], s => s
  | kw :: rest, s => rounds rest (step kw s)

/-- Extend the message schedule; the accumulator holds the words most
recent first, so `W[t-2]` is at index 1 and `W[t-16]` at index 15. -/
def schedExt : Nat → List Nat → List Nat
  | 0, acc => acc
  | n + 1, acc =>
    schedExt n
      (w32 (smallSigma1 (acc.getD 1 0) + acc.getD 6 0 +
            smallSigma0 (acc.getD 14 0) + acc.getD 15 0) :: acc)

/-- The 64-word message schedule of one block. -/
def schedule (block : List Nat) : List Nat := (schedExt 48 block.reverse).reverse

/-- Add two states componentwise modulo `2^32`. -/
def addSt (s t : St) : St :=
  ⟨w32 (s.a + t.a), w32 (s.b + t.b), w32 (s.c + t.c), w32 (s.d + t.d),
   w32 (s.e + t.e), w32 (s.f + t.f), w32 (s.g + t.g), w32 (s.h + t.h)⟩

/-- Compress one 16-word block into the running state. -/
def compress (s : St) (block : List Nat) : St :=
  addSt s (rounds (K.zip (schedule block)) s)

/-- Fold the compression function over the padded words, 16 at a time. -/
def processWords (s : St) : List Nat → St
  | w0 :: w1 :: w2 :: w3 :: w4 :: w5 :: w6 :: w7 ::
    w8 :: w9 :: w10 :: w11 :: w12 :: w13 :: w14 :: w15 :: rest =>
    processWords (compress s [w0, w1, w2, w3, w4, w5, w6, w7,
                              w8, w9, w10, w11, w12, w13, w14, w15]) rest
  | _ => s

/-- Big-endian packing of bytes into 32-bit words. -/
def toWords : List Nat → List Nat
  | a :: b :: c :: d :: rest => ((a <<< 24) + (b <<< 16) + (c <<< 8) + d) :: toWords rest
  | _ => []

/-- Big-endian bytes of a word list (4 bytes per word). -/
def wordsToBytes : List Nat → List Nat
  | [] => []
  | w :: rest =>
    (w >>> 24) % 256 :: (w >>> 16) % 256 :: (w >>> 8) % 256 :: w % 256 :: wordsToBytes rest

/-- The 8-byte big-endian encoding of the bit length. -/
def lenBytes (n : Nat) : List Nat :=
  [(n >>> 56) % 256, (n >>> 48) % 256, (n >>> 40) % 256, (n >>> 32) % 256,
   (n >>> 24) % 256, (n >>> 16) % 256, (n >>> 8) % 256, n % 256]

/-- SHA-256 padding: `0x80`, zeros to 56 mod 64, then the 64-bit bit length. -/
def pad (msg : List Nat) : List Nat :=
  msg ++ 128 :: List.replicate ((119 - msg.length % 64) % 64) 0 ++ lenBytes (8 * msg.length)

/-- The SHA-256 digest (32 bytes) of a byte string. -/
def sha256 (msg : List Nat) : List Nat :=
  let st := processWords initSt (toWords (pad msg))
  wordsToBytes [st.a, st.b, st.c, st.d, st.e, st.f, st.g, st.h]

/-- HMAC-SHA256 (Go `crypto/hmac` with a SHA-256 block size of 64). -/
def hmacSha256 (key msg : List Nat) : List Nat :=
  let k1 := if 64 < key.length then sha256 key else key
  let k2 := k1 ++ List.replicate (64 - k1.length) 0
  sha256 (k2.map (fun b => b ^^^ 0x5c) ++ sha256 (k2.map (fun b => b ^^^ 0x36) ++ msg))

end Sha256

/-! ## Signature verifier (`internal/webhook/handler.go`, `verifySignature`) -/

/-- One lowercase hex digit byte (`encoding/hex` alphabet `0123456789abcdef`). -/
def hexDigitByte (n : Nat) : Nat := if n < 10 then 48 + n else 87 + n

/-- Go `hex.EncodeToString`: two lowercase hex digit bytes per input byte. -/
def hexEncode : List Nat → GoStr
  | [] => []
  | b :: rest => hexDigitByte (b / 16) :: hexDigitByte (b % 16) :: hexEncode rest

/-- Embedding of `Handler.verifySignature`: reject an empty header, strip a
`sha256=` prefix, and compare against the lowercase hex HMAC-SHA256 digest
of the payload keyed by the webhook secret. -/
def verifySignature (secret payload signature : GoStr) : Bool :=
  match signature with
  | [] => false
  | _ :: _ =>
    trimPre (goStr "sha256=") signature == hexEncode (Sha256.hmacSha256 secret payload)

/-- The well-formed signature header for a payload under a secret. -/
def sigHeader (secret payload : GoStr) : GoStr :=
  goStr "sha256=" ++ hexEncode (Sha256.hmacSha256 secret payload)

/-- ASCII upper-casing of one byte. -/
def upperByte (b : Nat) : Nat := if 97 ≤ b ∧ b ≤ 122 then b - 32 else b

/-- The correct digest rendered in uppercase hex. -/
def upperHexDigest (secret payload : GoStr) : GoStr :=
  (hexEncode (Sha256.hmacSha256 secret payload)).map upperByte

/-! ## Git synchronizer (`Manager.FetchAndPull`, second file of
`internal/email/smtp.go`'s compilation unit in `src/`) -/

/-- What the external `git fetch` / `git pull` processes did: exit status
and the captured streams. -/
structure GitPullRun where
  fetchOk : Bool
  fetchErrOut : GoStr
  pullOk : Bool
  pullOut : GoStr
  pullErrOut : GoStr
deriving DecidableEq

/-- The classification `FetchAndPull` produces: `success` is a nil error,
`conflict` a `*ConflictError`, `otherFailure` a plain error. -/
inductive SyncResult where
  | success : SyncResult
  | conflict (msg : GoStr) : SyncResult
  | otherFailure (msg : GoStr) : SyncResult
deriving DecidableEq

/-- Embedding of `Manager.FetchAndPull`: fetch failure is a hard stop;
a failing pull whose stderr or stdout contains `CONFLICT` becomes a
`ConflictError` carrying stderr++stdout; a clean exit is success. -/
def FetchAndPull (r : GitPullRun) : SyncResult :=
  if r.fetchOk = false then
    .otherFailure (goStr "git fetch failed: " ++ r.fetchErrOut)
  else if r.pullOk = false then
    if containsGo r.pullErrOut (goStr "CONFLICT") || containsGo r.pullOut (goStr "CONFLICT") then
      .conflict (r.pullErrOut ++ r.pullOut)
    else .otherFailure (goStr "git pull failed: " ++ r.pullErrOut)
  else .success

/-! ## Command executors -/

/-- The program/argument/directory triple handed to the OS when a runner
starts a process. -/
structure SpawnSpec where
  prog : GoStr
  args : List GoStr
  dir : GoStr
deriving DecidableEq

/-- What `internal/executor/command.go` `Execute` spawns —
`sh -c <command>` with `cmd.Dir` set to the working directory. -/
def shExecSpawn (workDir command : GoStr) : SpawnSpec :=
  ⟨goStr "sh", [goStr "-c", command], workDir⟩

/-- What the post-pull command's process did (for the `sh -c` runner,
which captures stdout and stderr separately). -/
structure CmdRun where
  exitOk : Bool
  outStd : GoStr
  errStd : GoStr
  errText : GoStr
deriving DecidableEq

/-- The `CommandError` value built by `internal/executor/command.go`. -/
structure CommandError where
  command : GoStr
  outStd : GoStr
  errStd : GoStr
  errText : GoStr
deriving DecidableEq

/-- Embedding of `internal/executor/command.go` `Execute`: nil on a zero
exit, otherwise a `CommandError` carrying the captured streams. -/
def shExecRun (command : GoStr) (r : CmdRun) : Option CommandError :=
  if r.exitOk then none else some ⟨command, r.outStd, r.errStd, r.errText⟩

/-- Embedding of `CommandError.Error()`: the message text of a command failure. -/
def commandErrorText (e : CommandError) : GoStr :=
  goStr "command failed: " ++ e.command ++ [10] ++
  goStr "error: " ++ e.errText ++ [10] ++
  (if e.outStd ≠ [] then goStr "stdout:" ++ [10] ++ e.outStd ++ [10] else []) ++
  (if e.errStd ≠ [] then goStr "stderr:" ++ [10] ++ e.errStd ++ [10] else [])

/-- The timeout-equipped executor of the second `executor` package in
`src/unnamed/part_001`. -/
structure FieldsExecutor where
  workDir : GoStr
  timeout : Nat
deriving DecidableEq

/-- Embedding of `NewExecutor` of `src/unnamed/part_001`: default timeout
`10 * time.Minute` in nanoseconds. -/
def newFieldsExecutor (workDir : GoStr) : FieldsExecutor :=
  ⟨workDir, 600000000000⟩

/-- What that runner spawns: the whitespace-split fields of the command,
first field as the program, no shell; `none` when the command is empty. -/
def fieldsExecSpawn (workDir command : GoStr) : Option SpawnSpec :=
  match fieldsGo command with
  | [] => none
  | p :: args => some ⟨p, args, workDir⟩

/-- What the spawned process and the timer did for the timeout runner:
whether `CombinedOutput` returned before the timer fired, the exit status,
the combined output it captured (or had captured so far at the moment the
timer fired), and whether `cmd.Process` was non-nil then. -/
structure ExecEnv where
  finished : Bool
  exitOk : Bool
  output : GoStr
  started : Bool
deriving DecidableEq

/-- The `(string, error)` pair returned by `Execute` of
`src/unnamed/part_001`, sorted by which branch produced it.  Each carries
the string actually returned as the output value. -/
inductive RunOutcome where
  | emptyCommand : RunOutcome
  | timeout (returnedOutput : GoStr) (killed : Bool) : RunOutcome
  | failure (returnedOutput : GoStr) : RunOutcome
  | success (returnedOutput : GoStr) : RunOutcome
deriving DecidableEq

/-- Embedding of `Execute` of `src/unnamed/part_001`: split the command
into fields; when the timer fires first, kill the process (if it exists)
and return `""`; otherwise return the captured output with nil or non-nil
error according to the exit status. -/
def fieldsExecRun (command : GoStr) (env : ExecEnv) : RunOutcome :=
  match fieldsGo command with
  | [] => .emptyCommand
  | _ :: _ =>
    if env.finished = false then .timeout [] env.started
    else if env.exitOk = false then .failure env.output
    else .success env.output

/-! ## Watch registry and matching -/

/-- The `config.WatchedFolder` record (`internal/config/config.go`). -/
structure WatchedFolder where
  path : GoStr
  command : GoStr
  branch : GoStr
  repoURL : GoStr
deriving DecidableEq

/-- The `config.WatcherConfig` record (the alternate config schema in
`src/unnamed/part_001`). -/
structure WatcherConfig where
  path : GoStr
  branch : GoStr
  command : GoStr
  repoOwner : GoStr
  repoName : GoStr
deriving DecidableEq

/-- Embedding of `Config.GetWatcherByRepo`: the first watcher whose owner
and name match, `none` for the not-found error. -/
def GetWatcherByRepo (ws : List WatcherConfig) (owner name : GoStr) : Option WatcherConfig :=
  match ws with
  | [] => none
  | w :: rest =>
    if w.repoOwner == owner && w.repoName == name then some w
    else GetWatcherByRepo rest owner name

/-- The branch the webhook handler derives from a ref
(`processPushEvent`: `strings.TrimPrefix(event.Ref, "refs/heads/")`). -/
def handlerBranchOf (ref : GoStr) : GoStr := trimPre (goStr "refs/heads/") ref

/-- The folders `Handler.processPushEvent` processes, in order: the loop
body skips a folder on a URL or branch mismatch and otherwise processes it
and keeps iterating (there is no break). -/
def processedFolders (folders : List WatchedFolder) (cloneURL branch : GoStr) :
    List WatchedFolder :=
  match folders with
  | [] => []
  | f :: rest =>
    if CompareURLs f.repoURL cloneURL = false then processedFolders rest cloneURL branch
    else if f.branch ≠ branch then processedFolders rest cloneURL branch
    else f :: processedFolders rest cloneURL branch

/-- The targets processed for a push event with the given ref and clone
URL (`Handler.processPushEvent`). -/
def processPushEventTargets (folders : List WatchedFolder) (ref cloneURL : GoStr) :
    List WatchedFolder :=
  processedFolders folders cloneURL (handlerBranchOf ref)

/-- Embedding of `server.extractBranchFromRef`: strip `refs/heads/` only
when the ref is strictly longer than the prefix and starts with it. -/
def extractBranchFromRef (ref : GoStr) : GoStr :=
  let p := goStr "refs/heads/"
  if p.length < ref.length ∧ ref.take p.length = p then ref.drop p.length else ref

/-! ## Deployment pipeline (`internal/server/server.go`, `handlePushEvent`) -/

/-- The externally visible actions a pipeline run can take, in order. -/
inductive DeployAction where
  | conflictNote (path branch details : GoStr) : DeployAction
  | failNote (path branch msg : GoStr) : DeployAction
  | cmdFailNote (path branch command msg : GoStr) : DeployAction
  | runCommand (path command : GoStr) : DeployAction
deriving DecidableEq

/-- The outcomes of the effectful steps of one pipeline run. -/
structure DeployEnv where
  managerOk : Bool
  git : GitPullRun
  cmd : CmdRun
deriving DecidableEq

/-- Embedding of `Server.handlePushEvent`: look the watcher up by owner
and name, require branch equality, create the git manager, fetch and
pull (notifying on conflict or failure and stopping), then run the
post-update command when one is configured (notifying on its failure). -/
def handlePushEvent (watchers : List WatcherConfig) (owner name ref : GoStr)
    (env : DeployEnv) : List DeployAction :=
  let branch := extractBranchFromRef ref
  match GetWatcherByRepo watchers owner name with
  | none => []
  | some w =>
    if w.branch ≠ branch then []
    else if env.managerOk = false then
      [.failNote w.path branch (goStr "not a git repository: " ++ w.path)]
    else
      match FetchAndPull env.git with
      | .conflict m => [.conflictNote w.path branch (goStr "merge conflict: " ++ m)]
      | .otherFailure m => [.failNote w.path branch m]
      | .success =>
        if w.command ≠ [] then
          .runCommand w.path w.command ::
            (match shExecRun w.command env.cmd with
             | some e => [.cmdFailNote w.path branch w.command (commandErrorText e)]
             | none => [])
        else []

/-! ## HTTP surface -/

/-- Embedding of `Handler.ServeHTTP` (`internal/webhook/handler.go`) as
the status code it writes, with the body-read and JSON-parse outcomes of
the Go standard library passed in as inputs. -/
def serveHTTPStatus (secret method : GoStr) (readOk : Bool) (body signature event : GoStr)
    (parseOk : Bool) : Nat :=
  if method ≠ goStr "POST" then 405
  else if readOk = false then 400
  else if verifySignature secret body signature = false then 401
  else if event ≠ goStr "push" then 200
  else if parseOk = false then 400
  else 200

/-- Embedding of `Server.handleWebhook` (`internal/server/server.go`) as
the status code it writes; its signature check goes through the external
`go-github` library, whose verdict is passed in as `sigValid`. -/
def handleWebhookStatus (method : GoStr) (readOk sigValid : Bool) (event : GoStr)
    (parseOk : Bool) : Nat :=
  if method ≠ goStr "POST" then 405
  else if readOk = false then 400
  else if sigValid = false then 401
  else if event ≠ goStr "push" then 200
  else if parseOk = false then 400
  else 200

/-! ## Supporting lemmas -/

/-- The `sha256=` header prefix, concretely. -/
theorem goStr_sha256Pre : goStr "sha256=" = [115, 104, 97, 50, 53, 54, 61] := rfl

theorem length_hexEncode (l : List Nat) : (hexEncode l).length = 2 * l.length := by
  induction l with
  | nil => rfl
  | cons b rest ih => simp [hexEncode, ih]; omega

theorem length_sha256 (m : List Nat) : (Sha256.sha256 m).length = 32 := rfl

theorem length_hmacSha256 (k m : List Nat) : (Sha256.hmacSha256 k m).length = 32 :=
  length_sha256 _

theorem trimPre_append (p s : GoStr) : trimPre p (p ++ s) = s := by
  simp [trimPre, List.drop_left]

theorem trimPre_not_pre {p s : GoStr} (h : ¬ p <+: s) : trimPre p s = s := by
  simp [trimPre, h]

theorem verifySignature_eq (secret payload signature : GoStr) (hne : signature ≠ []) :
    verifySignature secret payload signature =
      (trimPre (goStr "sha256=") signature == hexEncode (Sha256.hmacSha256 secret payload)) := by
  cases signature with
  | nil => exact absurd rfl hne
  | cons b rest => rfl

theorem set_ne_of_ne {l : GoStr} {i c : Nat} (hi : i < l.length)
    (hc : c ≠ l.getD i 0) : l.set i c ≠ l := by
  intro he
  have h1 : (l.set i c)[i]? = some c := List.getElem?_set_self hi
  rw [he] at h1
  apply hc
  simp [List.getD_eq_getElem?_getD, h1]

/-! ## Claim theorems -/

/-- C1: for every secret and payload, verification accepts the header
`"sha256=" ++ lowercase-hex(HMAC-SHA256(secret, payload))`, rejects the
empty header, and rejects any header obtained from the valid one by
changing a single byte. -/
theorem C1_signature_verification (secret payload : GoStr) :
    verifySignature secret payload (sigHeader secret payload) = true ∧
    verifySignature secret payload [] = false ∧
    (∀ i c, i < (sigHeader secret payload).length →
      c ≠ (sigHeader secret payload).getD i 0 →
      verifySignature secret payload ((sigHeader secret payload).set i c) = false) := by
  have hd64 : (hexEncode (Sha256.hmacSha256 secret payload)).length = 64 := by
    rw [length_hexEncode, length_hmacSha256]
  have hp7 : (goStr "sha256=").length = 7 := rfl
  have hlen : (sigHeader secret payload).length = 71 := by
    simp [sigHeader, hd64, hp7]
  refine ⟨?_, rfl, ?_⟩
  · have hne : sigHeader secret payload ≠ [] := by
      intro h
      have h2 := congrArg List.length h
      rw [hlen] at h2
      simp at h2
    rw [verifySignature_eq _ _ _ hne, sigHeader, trimPre_append, beq_self_eq_true]
  · intro i c hi hc
    set hd := hexEncode (Sha256.hmacSha256 secret payload) with hhd
    have hmodlen : ((sigHeader secret payload).set i c).length = 71 := by
      rw [List.length_set, hlen]
    have hmodne : (sigHeader secret payload).set i c ≠ [] := by
      intro h
      have h2 := congrArg List.length h
      rw [hmodlen] at h2
      simp at h2
    rw [verifySignature_eq _ _ _ hmodne]
    by_cases hcase : i < 7
    · have hset : (sigHeader secret payload).set i c
          = (goStr "sha256=").set i c ++ hd := by
        rw [sigHeader, ← hhd, List.set_append_left _ _ (by rw [hp7]; exact hcase)]
      have hgetD : (sigHeader secret payload).getD i 0 = (goStr "sha256=").getD i 0 := by
        rw [sigHeader, ← hhd]
        simp [List.getD_eq_getElem?_getD,
          List.getElem?_append_left (by rw [hp7]; exact hcase)]
      have hpre_ne : (goStr "sha256=").set i c ≠ goStr "sha256=" :=
        set_ne_of_ne (by rw [hp7]; exact hcase) (by rw [← hgetD]; exact hc)
      have hnotpre : ¬ goStr "sha256=" <+: ((goStr "sha256=").set i c ++ hd) := by
        intro hp
        have h2 := List.prefix_iff_eq_take.mp hp
        rw [List.take_left' (by simp [hp7])] at h2
        exact hpre_ne h2.symm
      rw [hset, trimPre_not_pre hnotpre, beq_eq_false_iff_ne]
      intro h
      have h2 := congrArg List.length h
      rw [List.length_append, List.length_set, hp7, hd64] at h2
      omega
    · have h7le : 7 ≤ i := Nat.le_of_not_lt hcase
      have hset : (sigHeader secret payload).set i c
          = goStr "sha256=" ++ hd.set (i - 7) c := by
        rw [sigHeader, ← hhd, List.set_append_right _ _ (by rw [hp7]; exact h7le), hp7]
      have hgetD : (sigHeader secret payload).getD i 0 = hd.getD (i - 7) 0 := by
        rw [sigHeader, ← hhd, List.getD_eq_getElem?_getD, List.getD_eq_getElem?_getD,
          List.getElem?_append_right (by rw [hp7]; exact h7le), hp7]
      have hidx : i - 7 < hd.length := by
        rw [hd64]
        rw [hlen] at hi
        omega
      have hne2 : hd.set (i - 7) c ≠ hd :=
        set_ne_of_ne hidx (by rw [← hgetD]; exact hc)
      rw [hset, trimPre_append, beq_eq_false_iff_ne]
      exact hne2

/-- Witness for C1 at a concrete secret, payload, and byte change. -/
theorem C1_signature_verification_witness :
    verifySignature (goStr "s3cr3t") (goStr "payload")
        (sigHeader (goStr "s3cr3t") (goStr "payload")) = true ∧
    verifySignature (goStr "s3cr3t") (goStr "payload")
        ((sigHeader (goStr "s3cr3t") (goStr "payload")).set 9 120) = false :=
  ⟨(C1_signature_verification (goStr "s3cr3t") (goStr "payload")).1,
   (C1_signature_verification (goStr "s3cr3t") (goStr "payload")).2.2 9 120
     (by decide) (by decide)⟩

/-- C10: the stripped header is compared to the lowercase hex digest by
exact byte equality; whenever the uppercase rendering of the correct
digest differs from the lowercase one, a header carrying the uppercase
digest is rejected, and in general a nonempty header verifies exactly
when its stripped form equals the lowercase digest. -/
theorem C10_case_sensitive_comparison (secret payload : GoStr)
    (hdiff : upperHexDigest secret payload ≠ hexEncode (Sha256.hmacSha256 secret payload)) :
    verifySignature secret payload (goStr "sha256=" ++ upperHexDigest secret payload) = false ∧
    (∀ signature, signature ≠ [] →
      (verifySignature secret payload signature = true ↔
        trimPre (goStr "sha256=") signature = hexEncode (Sha256.hmacSha256 secret payload))) := by
  constructor
  · have hne : goStr "sha256=" ++ upperHexDigest secret payload ≠ [] := by
      rw [goStr_sha256Pre]
      simp
    rw [verifySignature_eq _ _ _ hne, trimPre_append, beq_eq_false_iff_ne]
    exact hdiff
  · intro signature hne
    rw [verifySignature_eq _ _ _ hne]
    exact beq_iff_eq

/-- Witness for C10: a concrete secret and payload whose digest contains a
hex letter, so the uppercase header differs and is rejected. -/
theorem C10_case_sensitive_comparison_witness :
    verifySignature (goStr "s3cr3t") (goStr "payload")
      (goStr "sha256=" ++ upperHexDigest (goStr "s3cr3t") (goStr "payload")) = false :=
  (C10_case_sensitive_comparison (goStr "s3cr3t") (goStr "payload") (by decide)).1

/-- C2 counterexample: a pull that exits zero (`pullOk = true`) with
`CONFLICT` in its captured stdout is classified as plain success, not as
a `ConflictFailure`, so the classification is not independent of the exit
code. -/
theorem C2_counterexample :
    FetchAndPull ⟨true, [], true, goStr "CONFLICT", []⟩ = SyncResult.success ∧
    containsGo (GitPullRun.pullOut ⟨true, [], true, goStr "CONFLICT", []⟩)
      (goStr "CONFLICT") = true ∧
    SyncResult.success ≠ SyncResult.conflict (goStr "CONFLICT") := by decide

/-- C2 (amended): when the fetch succeeded, a pull that exits non-zero
with `CONFLICT` in either captured stream classifies as a conflict
carrying stderr++stdout, while a pull that exits zero is success
regardless of its output. -/
theorem C2_conflict_classification (r : GitPullRun) (hf : r.fetchOk = true) :
    ((containsGo r.pullErrOut (goStr "CONFLICT") ||
      containsGo r.pullOut (goStr "CONFLICT")) = true → r.pullOk = false →
        FetchAndPull r = SyncResult.conflict (r.pullErrOut ++ r.pullOut)) ∧
    (r.pullOk = true → FetchAndPull r = SyncResult.success) := by
  constructor
  · intro hc hp
    simp [FetchAndPull, hf, hp, hc]
  · intro hp
    simp [FetchAndPull, hf, hp]

/-- Witness for C2 at concrete process results: a conflicting non-zero
pull and a clean zero-exit pull. -/
theorem C2_conflict_classification_witness :
    FetchAndPull ⟨true, [], false, goStr "CONFLICT (content): x", []⟩ =
      SyncResult.conflict ([] ++ goStr "CONFLICT (content): x") ∧
    FetchAndPull ⟨true, [], true, goStr "Already up to date.", []⟩ = SyncResult.success :=
  ⟨(C2_conflict_classification ⟨true, [], false, goStr "CONFLICT (content): x", []⟩
      (by decide)).1 (by decide) (by decide),
   (C2_conflict_classification ⟨true, [], true, goStr "Already up to date.", []⟩
      (by decide)).2 (by decide)⟩

/-- C3 counterexample: with two targets both matching the event's URL and
branch, the handler's loop processes both of them in order — not only the
first — because the loop has no break. -/
theorem C3_counterexample :
    processPushEventTargets
        [⟨goStr "/srv/a", [], goStr "main", goStr "https://github.com/x/y"⟩,
         ⟨goStr "/srv/b", [], goStr "main", goStr "https://github.com/x/y"⟩]
        (goStr "refs/heads/main") (goStr "https://github.com/x/y") =
      [⟨goStr "/srv/a", [], goStr "main", goStr "https://github.com/x/y"⟩,
       ⟨goStr "/srv/b", [], goStr "main", goStr "https://github.com/x/y"⟩] ∧
    [(⟨goStr "/srv/a", [], goStr "main", goStr "https://github.com/x/y"⟩ : WatchedFolder),
     ⟨goStr "/srv/b", [], goStr "main", goStr "https://github.com/x/y"⟩] ≠
      [⟨goStr "/srv/a", [], goStr "main", goStr "https://github.com/x/y"⟩] := by decide

/-- C3 (amended): the handler visits targets in registration order, a
target is processed iff its URL matches and its branch equals the derived
branch exactly, and every matching target is processed. -/
theorem C3_matching (folders : List WatchedFolder) (ref cloneURL : GoStr) :
    processPushEventTargets folders ref cloneURL =
      folders.filter (fun f =>
        CompareURLs f.repoURL cloneURL && f.branch == handlerBranchOf ref) := by
  show processedFolders folders cloneURL (handlerBranchOf ref) = _
  induction folders with
  | nil => rfl
  | cons f rest ih =>
    by_cases h1 : CompareURLs f.repoURL cloneURL = false
    · simp [processedFolders, h1, List.filter_cons, ih]
    · have h1' : CompareURLs f.repoURL cloneURL = true := by
        cases hx : CompareURLs f.repoURL cloneURL
        · exact absurd hx h1
        · rfl
      by_cases h2 : f.branch = handlerBranchOf ref
      · simp [processedFolders, h1', h2, List.filter_cons, ih]
      · simp [processedFolders, h1', h2, List.filter_cons, ih]


theorem trimSuf_not {s suf : GoStr} (h : suf.isSuffixOf s = false) : trimSuf s suf = s := by
  simp [trimSuf, h]

theorem replaceFirst_single (b : Nat) (new l₁ l₂ : GoStr) (h : b ∉ l₁) :
    replaceFirst [b] new (l₁ ++ b :: l₂) = l₁ ++ new ++ l₂ := by
  induction l₁ with
  | nil =>
    show replaceFirst [b] new (b :: l₂) = new ++ l₂
    have hcond : [b].isPrefixOf (b :: l₂) = true := by
      simp [List.isPrefixOf]
    rw [replaceFirst, hcond]
    simp
  | cons a l₁ ih =>
    have hab : a ≠ b := fun he => h (he ▸ List.mem_cons_self a l₁)
    have hcond : [b].isPrefixOf (a :: (l₁ ++ b :: l₂)) = false := by
      simp [List.isPrefixOf]
      exact fun he => absurd he.symm hab
    show replaceFirst [b] new (a :: (l₁ ++ b :: l₂)) = a :: (l₁ ++ new ++ l₂)
    rw [replaceFirst, hcond]
    simp only [Bool.false_eq_true, if_false]
    rw [ih (fun hm => h (List.mem_cons_of_mem a hm))]

theorem replaceFirst_of_pre (old new s : GoStr) (hne : old ≠ []) :
    replaceFirst old new (old ++ s) = new ++ s := by
  cases old with
  | nil => exact absurd rfl hne
  | cons a as =>
    have hp : (a :: as).isPrefixOf (a :: (as ++ s)) = true := by
      rw [ List.isPrefixOf_iff_prefix, ← List.cons_append]
      exact List.prefix_append _ _
    show replaceFirst (a :: as) new (a :: (as ++ s)) = new ++ s
    rw [replaceFirst, hp]
    simp only [if_true]
    congr 1
    rw [show ((a :: as : GoStr)).length = as.length + 1 from rfl, List.drop_succ_cons,
      List.drop_left]


theorem normalizeGitURL_ssh (host rest : GoStr) (hcolon : 58 ∉ host)
    (hsuf : (goStr ".git").isSuffixOf (goStr "git@" ++ (host ++ 58 :: rest)) = false) :
    normalizeGitURL (goStr "git@" ++ (host ++ 58 :: rest)) =
      toLowerGo (goStr "https://" ++ (host ++ 47 :: rest)) := by
  have hnocolon : 58 ∉ goStr "git@" ++ host := by
    intro hm
    rcases List.mem_append.mp hm with h4 | hh
    · revert h4
      decide
    · exact hcolon hh
  have h1 := replaceFirst_single 58 (goStr "/") (goStr "git@" ++ host) rest hnocolon
  simp only [List.append_assoc, List.singleton_append] at h1
  have hstep1 : replaceFirst (goStr ":") (goStr "/") (goStr "git@" ++ (host ++ 58 :: rest))
      = goStr "git@" ++ (host ++ 47 :: rest) := h1
  have hstep2 : replaceFirst (goStr "git@") (goStr "https://")
      (goStr "git@" ++ (host ++ 47 :: rest)) = goStr "https://" ++ (host ++ 47 :: rest) :=
    replaceFirst_of_pre (goStr "git@") (goStr "https://") (host ++ 47 :: rest) (by decide)
  have hgitpre : (goStr "git@").isPrefixOf (goStr "git@" ++ (host ++ 58 :: rest)) = true := by
    rw [ List.isPrefixOf_iff_prefix]
    exact List.prefix_append _ _
  have hhttps : (goStr "https://").isPrefixOf
      (goStr "https://" ++ (host ++ 47 :: rest)) = true := by
    rw [ List.isPrefixOf_iff_prefix]
    exact List.prefix_append _ _
  simp only [normalizeGitURL, trimSuf_not hsuf, hgitpre, hstep1, hstep2, hhttps,
    Bool.or_true, if_true]

/-- C4: urlsMatch is equality of the normalized forms; on an SSH shorthand
`git@host:rest` with a colon-free host and no trailing `.git`, the
normalizer produces the lower-cased `https://host/rest`; and the two
reference examples hold, the first after the full normalize pipeline. -/
theorem C4_url_normalization :
    (∀ a b, CompareURLs a b = (normalizeGitURL a == normalizeGitURL b)) ∧
    (∀ host rest : GoStr, 58 ∉ host →
      (goStr ".git").isSuffixOf (goStr "git@" ++ (host ++ 58 :: rest)) = false →
      normalizeGitURL (goStr "git@" ++ (host ++ 58 :: rest)) =
        toLowerGo (goStr "https://" ++ (host ++ 47 :: rest))) ∧
    normalizeGitURL (goStr "git@github.com:Owner/Repo.git") =
      goStr "https://github.com/owner/repo" ∧
    CompareURLs (goStr "git@github.com:Owner/Repo.git")
      (goStr "https://github.com/owner/repo") = true ∧
    CompareURLs (goStr "https://github.com/a/b") (goStr "https://github.com/a/c") = false :=
  ⟨fun a b => rfl, normalizeGitURL_ssh, by decide, by decide, by decide⟩

/-- Witness for C4's SSH-shorthand clause at a concrete host and path. -/
theorem C4_url_normalization_witness :
    normalizeGitURL (goStr "git@" ++ (goStr "Example.com" ++ 58 :: goStr "O/R")) =
      toLowerGo (goStr "https://" ++ (goStr "Example.com" ++ 47 :: goStr "O/R")) :=
  C4_url_normalization.2.1 (goStr "Example.com") (goStr "O/R") (by decide) (by decide)

/-- C9 counterexample: the ref `"refs/heads/"` carries the prefix yet the
derived branch is the whole ref, not the stripped (empty) remainder,
because `extractBranchFromRef` demands a strictly longer ref. -/
theorem C9_counterexample :
    extractBranchFromRef (goStr "refs/heads/") = goStr "refs/heads/" ∧
    (goStr "refs/heads/").isPrefixOf (goStr "refs/heads/") = true ∧
    goStr "refs/heads/" ≠ ([] : GoStr) := by decide

/-- C9 (amended): `extractBranchFromRef` strips `refs/heads/` exactly when
the ref is strictly longer than the prefix and starts with it; a ref
without the prefix, or equal to the bare prefix, passes through verbatim.
The handler-side `TrimPrefix` derivation strips whenever the prefix is
present. -/
theorem C9_branch_extraction :
    (∀ rest : GoStr, rest ≠ [] →
      extractBranchFromRef (goStr "refs/heads/" ++ rest) = rest) ∧
    (∀ ref : GoStr, ¬ goStr "refs/heads/" <+: ref → extractBranchFromRef ref = ref) ∧
    extractBranchFromRef (goStr "refs/heads/") = goStr "refs/heads/" ∧
    (∀ rest : GoStr, handlerBranchOf (goStr "refs/heads/" ++ rest) = rest) := by
  refine ⟨?_, ?_, by decide, fun rest => trimPre_append _ _⟩
  · intro rest hne
    have hlt : (goStr "refs/heads/").length < (goStr "refs/heads/" ++ rest).length := by
      rw [List.length_append]
      cases rest with
      | nil => exact absurd rfl hne
      | cons a l => simp
    have hcond : (goStr "refs/heads/").length < (goStr "refs/heads/" ++ rest).length ∧
        (goStr "refs/heads/" ++ rest).take (goStr "refs/heads/").length = goStr "refs/heads/" :=
      ⟨hlt, List.take_left _ _⟩
    simp only [extractBranchFromRef]
    rw [if_pos hcond]
    exact List.drop_left _ _
  · intro ref hnp
    have hcond : ¬ ((goStr "refs/heads/").length < ref.length ∧
        ref.take (goStr "refs/heads/").length = goStr "refs/heads/") := by
      rintro ⟨h1, h2⟩
      exact hnp (List.prefix_iff_eq_take.mpr h2.symm)
    simp [extractBranchFromRef, hcond]

/-- Witness for C9 at a concrete ref with and without the prefix. -/
theorem C9_branch_extraction_witness :
    extractBranchFromRef (goStr "refs/heads/" ++ goStr "main") = goStr "main" ∧
    extractBranchFromRef (goStr "refs/tags/v1") = goStr "refs/tags/v1" :=
  ⟨C9_branch_extraction.1 (goStr "main") (by decide),
   C9_branch_extraction.2.1 (goStr "refs/tags/v1") (by decide)⟩

/-- C6 counterexample: when the timer fires first the runner returns the
empty string, discarding the partial output the process had produced, so
the partial output is not attached to the timeout result. -/
theorem C6_counterexample :
    fieldsExecRun (goStr "sleep 100") ⟨false, true, goStr "partial output", true⟩ =
      RunOutcome.timeout [] true ∧
    RunOutcome.timeout [] true ≠ RunOutcome.timeout (goStr "partial output") true := by
  decide

/-- C6 (amended): the default timeout is 10 minutes; when the timer fires
before completion the process is killed (when it exists) and the result is
a timeout carrying an empty output string — the partial output is
discarded; otherwise a zero exit yields success and a non-zero exit a
failure, each carrying the captured output. -/
theorem C6_execution_outcomes :
    (∀ wd, (newFieldsExecutor wd).timeout = 600000000000) ∧
    (∀ cmd env, fieldsGo cmd ≠ [] → env.finished = false →
      fieldsExecRun cmd env = RunOutcome.timeout [] env.started) ∧
    (∀ cmd env, fieldsGo cmd ≠ [] → env.finished = true → env.exitOk = true →
      fieldsExecRun cmd env = RunOutcome.success env.output) ∧
    (∀ cmd env, fieldsGo cmd ≠ [] → env.finished = true → env.exitOk = false →
      fieldsExecRun cmd env = RunOutcome.failure env.output) := by
  refine ⟨fun wd => rfl, ?_, ?_, ?_⟩ <;>
    intro cmd env h1 h2 <;>
    first
      | (intro h3
         cases hf : fieldsGo cmd with
         | nil => exact absurd hf h1
         | cons p args => simp [fieldsExecRun, hf, h2, h3])
      | (cases hf : fieldsGo cmd with
         | nil => exact absurd hf h1
         | cons p args => simp [fieldsExecRun, hf, h2])

/-- Witness for C6 at a concrete command and process behaviour. -/
theorem C6_execution_outcomes_witness :
    fieldsExecRun (goStr "sleep 100") ⟨false, true, goStr "out so far", true⟩ =
      RunOutcome.timeout [] true ∧
    fieldsExecRun (goStr "echo hi") ⟨true, true, goStr "hi", true⟩ =
      RunOutcome.success (goStr "hi") :=
  ⟨C6_execution_outcomes.2.1 (goStr "sleep 100") ⟨false, true, goStr "out so far", true⟩
      (by decide) rfl,
   C6_execution_outcomes.2.2.1 (goStr "echo hi") ⟨true, true, goStr "hi", true⟩
      (by decide) rfl rfl⟩

/-- C7 counterexample: the timeout runner does not hand the command to a
shell — `echo a && echo b` spawns `echo` with the literal arguments
`a`, `&&`, `b`, not `sh -c "echo a && echo b"`. -/
theorem C7_counterexample :
    fieldsExecSpawn (goStr "/srv/app") (goStr "echo a && echo b") =
      some ⟨goStr "echo", [goStr "a", goStr "&&", goStr "echo", goStr "b"], goStr "/srv/app"⟩ ∧
    some (SpawnSpec.mk (goStr "echo") [goStr "a", goStr "&&", goStr "echo", goStr "b"] (goStr "/srv/app")) ≠
      some (shExecSpawn (goStr "/srv/app") (goStr "echo a && echo b")) := by decide

/-- C7 (amended): the `sh -c` runner passes the whole command string to a
shell with the working directory set to the target path, while the
timeout runner whitespace-splits the command and spawns its first field
directly, so only the former shell-interprets the command. -/
theorem C7_command_spawning :
    (∀ wd cmd : GoStr, shExecSpawn wd cmd = ⟨goStr "sh", [goStr "-c", cmd], wd⟩ ∧
      (shExecSpawn wd cmd).dir = wd) ∧
    (∀ wd cmd p args, fieldsGo cmd = p :: args →
      fieldsExecSpawn wd cmd = some ⟨p, args, wd⟩) ∧
    fieldsGo (goStr "echo a && echo b") =
      [goStr "echo", goStr "a", goStr "&&", goStr "echo", goStr "b"] := by
  refine ⟨fun wd cmd => ⟨rfl, rfl⟩, ?_, by decide⟩
  intro wd cmd p args h
  simp [fieldsExecSpawn, h]

/-- Witness for C7's field-splitting clause at a concrete command. -/
theorem C7_command_spawning_witness :
    fieldsExecSpawn (goStr "/srv/app") (goStr "echo hi") =
      some ⟨goStr "echo", [goStr "hi"], goStr "/srv/app"⟩ :=
  C7_command_spawning.2.1 (goStr "/srv/app") (goStr "echo hi") (goStr "echo") [goStr "hi"]
    (by decide)

/-- C5: on a matched watcher with a live repository, a conflict from the
synchronizer produces exactly one conflict notification and the pipeline
halts without running the post-pull command; any other synchronization
failure produces exactly one generic failure notification, again with no
command run. -/
theorem C5_sync_failure_halts (watchers : List WatcherConfig) (owner name ref : GoStr)
    (env : DeployEnv) (w : WatcherConfig)
    (hw : GetWatcherByRepo watchers owner name = some w)
    (hb : w.branch = extractBranchFromRef ref)
    (hm : env.managerOk = true) :
    (∀ m, FetchAndPull env.git = SyncResult.conflict m →
      handlePushEvent watchers owner name ref env =
        [DeployAction.conflictNote w.path (extractBranchFromRef ref)
          (goStr "merge conflict: " ++ m)] ∧
      ∀ p c, DeployAction.runCommand p c ∉ handlePushEvent watchers owner name ref env) ∧
    (∀ m, FetchAndPull env.git = SyncResult.otherFailure m →
      handlePushEvent watchers owner name ref env =
        [DeployAction.failNote w.path (extractBranchFromRef ref) m] ∧
      ∀ p c, DeployAction.runCommand p c ∉ handlePushEvent watchers owner name ref env) := by
  constructor
  · intro m hs
    have heq : handlePushEvent watchers owner name ref env =
        [DeployAction.conflictNote w.path (extractBranchFromRef ref)
          (goStr "merge conflict: " ++ m)] := by
      simp [handlePushEvent, hw, hb, hm, hs]
    refine ⟨heq, ?_⟩
    intro p c hmem
    rw [heq] at hmem
    simp at hmem
  · intro m hs
    have heq : handlePushEvent watchers owner name ref env =
        [DeployAction.failNote w.path (extractBranchFromRef ref) m] := by
      simp [handlePushEvent, hw, hb, hm, hs]
    refine ⟨heq, ?_⟩
    intro p c hmem
    rw [heq] at hmem
    simp at hmem

/-- Witness for C5 at a concrete registry and a conflicting pull. -/
theorem C5_sync_failure_halts_witness :
    handlePushEvent
        [⟨goStr "/srv/a", goStr "main", goStr "echo hi", goStr "alice", goStr "app"⟩]
        (goStr "alice") (goStr "app") (goStr "refs/heads/main")
        ⟨true, ⟨true, [], false, goStr "CONFLICT in file", []⟩, ⟨true, [], [], []⟩⟩ =
      [DeployAction.conflictNote (goStr "/srv/a")
        (extractBranchFromRef (goStr "refs/heads/main"))
        (goStr "merge conflict: " ++ ([] ++ goStr "CONFLICT in file"))] :=
  ((C5_sync_failure_halts
      [⟨goStr "/srv/a", goStr "main", goStr "echo hi", goStr "alice", goStr "app"⟩]
      (goStr "alice") (goStr "app") (goStr "refs/heads/main")
      ⟨true, ⟨true, [], false, goStr "CONFLICT in file", []⟩, ⟨true, [], [], []⟩⟩
      ⟨goStr "/srv/a", goStr "main", goStr "echo hi", goStr "alice", goStr "app"⟩
      (by decide) (by decide) rfl).1 ([] ++ goStr "CONFLICT in file") (by decide)).1

/-- C8: the webhook endpoints answer 405 to a non-POST; and to a POST whose
body was read: 401 on a bad signature, 200 on a good signature with a
non-push event, 400 on a push event whose body does not parse, and 200 on
a push event whose body parses — in both the `webhook.Handler` and the
`server.Server` implementations. -/
theorem C8_http_statuses (secret method body signature event : GoStr)
    (readOk parseOk sigValid : Bool) :
    (method ≠ goStr "POST" →
      serveHTTPStatus secret method readOk body signature event parseOk = 405 ∧
      handleWebhookStatus method readOk sigValid event parseOk = 405) ∧
    (method = goStr "POST" → readOk = true →
      ((verifySignature secret body signature = false →
          serveHTTPStatus secret method readOk body signature event parseOk = 401) ∧
       (sigValid = false → handleWebhookStatus method readOk sigValid event parseOk = 401) ∧
       (verifySignature secret body signature = true → event ≠ goStr "push" →
          serveHTTPStatus secret method readOk body signature event parseOk = 200) ∧
       (sigValid = true → event ≠ goStr "push" →
          handleWebhookStatus method readOk sigValid event parseOk = 200) ∧
       (verifySignature secret body signature = true → event = goStr "push" →
          parseOk = false →
          serveHTTPStatus secret method readOk body signature event parseOk = 400) ∧
       (sigValid = true → event = goStr "push" → parseOk = false →
          handleWebhookStatus method readOk sigValid event parseOk = 400) ∧
       (verifySignature secret body signature = true → event = goStr "push" →
          parseOk = true →
          serveHTTPStatus secret method readOk body signature event parseOk = 200) ∧
       (sigValid = true → event = goStr "push" → parseOk = true →
          handleWebhookStatus method readOk sigValid event parseOk = 200))) := by
  constructor
  · intro hm
    exact ⟨by simp [serveHTTPStatus, hm], by simp [handleWebhookStatus, hm]⟩
  · intro hm hr
    refine ⟨fun h1 => ?_, fun h1 => ?_, fun h1 h2 => ?_, fun h1 h2 => ?_,
      fun h1 h2 h3 => ?_, fun h1 h2 h3 => ?_, fun h1 h2 h3 => ?_, fun h1 h2 h3 => ?_⟩ <;>
      simp_all [serveHTTPStatus, handleWebhookStatus]

/-- Witness for C8 at concrete requests covering each status. -/
theorem C8_http_statuses_witness :
    serveHTTPStatus (goStr "s3cr3t") (goStr "GET") true (goStr "payload") []
      (goStr "push") true = 405 ∧
    serveHTTPStatus (goStr "s3cr3t") (goStr "POST") true (goStr "payload") []
      (goStr "push") true = 401 ∧
    serveHTTPStatus (goStr "s3cr3t") (goStr "POST") true (goStr "payload")
      (sigHeader (goStr "s3cr3t") (goStr "payload")) (goStr "ping") true = 200 ∧
    serveHTTPStatus (goStr "s3cr3t") (goStr "POST") true (goStr "payload")
      (sigHeader (goStr "s3cr3t") (goStr "payload")) (goStr "push") false = 400 ∧
    serveHTTPStatus (goStr "s3cr3t") (goStr "POST") true (goStr "payload")
      (sigHeader (goStr "s3cr3t") (goStr "payload")) (goStr "push") true = 200 ∧
    handleWebhookStatus (goStr "POST") true false (goStr "push") true = 401 :=
  ⟨((C8_http_statuses (goStr "s3cr3t") (goStr "GET") (goStr "payload") []
      (goStr "push") true true true).1 (by decide)).1,
   (((C8_http_statuses (goStr "s3cr3t") (goStr "POST") (goStr "payload") []
      (goStr "push") true true true).2 rfl rfl).1 (by decide)),
   (((C8_http_statuses (goStr "s3cr3t") (goStr "POST") (goStr "payload")
      (sigHeader (goStr "s3cr3t") (goStr "payload"))
      (goStr "ping") true true true).2 rfl rfl).2.2.1 (by decide) (by decide)),
   (((C8_http_statuses (goStr "s3cr3t") (goStr "POST") (goStr "payload")
      (sigHeader (goStr "s3cr3t") (goStr "payload"))
      (goStr "push") true false true).2 rfl rfl).2.2.2.2.1 (by decide) rfl rfl),
   (((C8_http_statuses (goStr "s3cr3t") (goStr "POST") (goStr "payload")
      (sigHeader (goStr "s3cr3t") (goStr "payload"))
      (goStr "push") true true true).2 rfl rfl).2.2.2.2.2.2.1 (by decide) rfl rfl),
   (((C8_http_statuses (goStr "s3cr3t") (goStr "POST") (goStr "payload") []
      (goStr "push") true true false).2 rfl rfl).2.1 rfl)⟩
